import Mathlib

/-!
Verification of the stackwise error-ingestion and analysis pipeline.

The first part embeds the Node SDK middleware
(`src/sdks/node/src/index.ts`): path sanitization, status-code
derivation, the duplicate-ingestion marker, and the fire-and-forget
send.  The second part embeds the frontend read surface
(`src/frontend/lib/api.ts`, the error-detail page) and a model of the
backend Celery pipeline whose Python source is not part of this tree
(those definitions are marked `Modelled from the spec:`).
-/

namespace Stackwise

/-! ## Path sanitization (`sanitizePath` in src/sdks/node/src/index.ts) -/

/-- Character class of the JS regex `[0-9a-f]` with the `i` flag. -/
def isHexChar (c : Char) : Bool :=
  c.isDigit || ('a' ≤ c && c ≤ 'f') || ('A' ≤ c && c ≤ 'F')

/-- Consume exactly `n` hex characters, returning the remainder. -/
def hexRun : Nat → List Char → Option (List Char)
  | 0, rest => some rest
  | n + 1, c :: rest => if isHexChar c then hexRun n rest else none
  | _ + 1, [] => none

/-- Consume a single dash character. -/
def dashChar : List Char → Option (List Char)
  | c :: rest => if c = '-' then some rest else none
  | [] => none

/-- Match the body of the UUID regex
`[0-9a-f]{8}-[0-9a-f]{4}-[0-9a-f]{4}-[0-9a-f]{4}-[0-9a-f]{12}`
(36 characters) at the head of the list. -/
def matchUuid (l : List Char) : Option (List Char) := do
  let r ← hexRun 8 l
  let r ← dashChar r
  let r ← hexRun 4 r
  let r ← dashChar r
  let r ← hexRun 4 r
  let r ← dashChar r
  let r ← hexRun 4 r
  let r ← dashChar r
  hexRun 12 r

/-- Global replacement pass of
`/\/[0-9a-f]{8}-[0-9a-f]{4}-[0-9a-f]{4}-[0-9a-f]{4}-[0-9a-f]{12}/gi`
by `/:id`: at a `/` whose tail starts with a 36-character UUID body the
match (37 characters) is replaced and scanning resumes after it. -/
def replaceUUIDs : List Char → List Char
  | [] => []
  | c :: rest =>
    if c = '/' && (matchUuid rest).isSome then
      '/' :: ':' :: 'i' :: 'd' :: replaceUUIDs (rest.drop 36)
    else
      c :: replaceUUIDs rest
termination_by l => l.length
decreasing_by
  · simp only [List.length_drop, List.length_cons]; omega
  · simp

/-- Does the list start with a decimal digit? -/
def startsDigit : List Char → Bool
  | d :: _ => d.isDigit
  | [] => false

/-- Global replacement pass of `/\/\d+/g` by `/:id`: a `/` followed by a
maximal nonempty digit run is replaced and scanning resumes after the
run. -/
def replaceNums : List Char → List Char
  | [] => []
  | c :: rest =>
    if c = '/' && startsDigit rest then
      '/' :: ':' :: 'i' :: 'd' :: replaceNums (rest.dropWhile Char.isDigit)
    else
      c :: replaceNums rest
termination_by l => l.length
decreasing_by
  · have := (List.dropWhile_sublist Char.isDigit (l := rest)).length_le
    simp only [List.length_cons]; omega
  · simp

/-- The two replacement passes of `sanitizePath`, UUIDs first. -/
def sanitizeChars (l : List Char) : List Char :=
  replaceNums (replaceUUIDs l)

/-- The SDK's `sanitizePath`: replace UUID segments, then numeric id
runs, by `:id`. -/
def sanitizePath (s : String) : String :=
  ⟨sanitizeChars s.data⟩

/-- The prefix of a string before its first question mark:
`url.split('?')[0]` in the middleware. -/
def stripQuery (s : String) : String :=
  ⟨s.data.takeWhile (fun c => c ≠ '?')⟩

/-! ## The error-ingestion middleware (src/sdks/node/src/index.ts) -/

/-- JS truthiness of a possibly absent numeric property
(absent and `0` are falsy). -/
def truthyNum : Option Int → Bool
  | some n => n ≠ 0
  | none => false

/-- JS truthiness of a possibly absent string property
(absent and the empty string are falsy). -/
def truthyStr : Option String → Bool
  | some s => s ≠ ""
  | none => false

/-- The error object handed to the middleware: its `message`, `stack`,
`statusCode` and `status` properties, and the
`Symbol.for('error_ingested')` marker property (`INGESTED`). -/
structure ErrObject where
  message : String
  stack : Option String
  statusCode : Option Int
  errStatus : Option Int
  ingested : Bool
deriving DecidableEq, Repr

/-- The request fields the middleware reads. -/
structure ReqObject where
  method : String
  originalUrl : Option String
  path : String
deriving DecidableEq, Repr

/-- The response field the middleware reads (`res.statusCode`; Express
defaults it to 200, `0` models a falsy value). -/
structure ResObject where
  statusCode : Int
deriving DecidableEq, Repr

/-- The serialized event posted to `/api/v1/events`. -/
structure EventRecord where
  message : String
  stack : Option String
  method : String
  path : String
  status_code : Int
  timestamp : String
deriving DecidableEq, Repr

/-- JS `a || b` on two possibly absent numeric properties. -/
def jsOrNum (a b : Option Int) : Option Int :=
  if truthyNum a then a else b

/-- Status-code derivation of the middleware:
`err.statusCode || err.status`, and when that is falsy,
`(res.statusCode && res.statusCode !== 200) ? res.statusCode : 500`. -/
def computeStatusCode (err : ErrObject) (res : ResObject) : Int :=
  let sc := jsOrNum err.statusCode err.errStatus
  if truthyNum sc then sc.getD 0
  else if res.statusCode ≠ 0 && res.statusCode ≠ 200 then res.statusCode
  else 500

/-- Path selection of the middleware:
`req.originalUrl ? req.originalUrl.split('?')[0] : req.path`. -/
def pathToSanitize (req : ReqObject) : String :=
  if truthyStr req.originalUrl then stripQuery (req.originalUrl.getD "")
  else req.path

/-- The `ErrorEvent` value built by the middleware (`now` stands for
`new Date().toISOString()`). -/
def buildErrorEvent (now : String) (err : ErrObject) (req : ReqObject)
    (res : ResObject) : EventRecord :=
  { message := if err.message ≠ "" then err.message else "Unknown error"
    stack := err.stack
    method := req.method
    path := sanitizePath (pathToSanitize req)
    status_code := computeStatusCode err res
    timestamp := now }

/-- Outcome of the HTTP send performed by `axios.post`. -/
inductive SendOutcome where
  | delivered
  | rejectedByServer
  | networkError
  | timedOut
deriving DecidableEq, Repr

/-- The raw `axios.post` call: everything but a delivery raises. -/
def axiosPost : SendOutcome → Except String Unit
  | .delivered => .ok ()
  | .rejectedByServer => .error "request failed with an error status"
  | .networkError => .error "network error"
  | .timedOut => .error "timeout exceeded"

/-- `sendErrorEvent`: the `axios.post` call wrapped in `try`/`catch`;
any failure is logged and swallowed, never propagated. -/
def sendErrorEvent (outcome : SendOutcome) : Except String Unit :=
  match axiosPost outcome with
  | .ok _ => .ok ()
  | .error _ => .ok ()

/-- Observable result of one middleware invocation. -/
structure MiddlewareResult where
  errAfter : ErrObject
  posted : Option EventRecord
  sendResult : Except String Unit
  nextCalledWith : Option ErrObject
deriving Repr

/-- One invocation of the handler returned by
`errorIngestionMiddleware`: if the error already carries the `INGESTED`
marker it is only forwarded to `next`; otherwise the marker is set, the
event is built and sent (failures swallowed by `.catch`), and `next(err)`
is called. -/
def errorIngestionMiddleware (now : String) (outcome : SendOutcome)
    (err : ErrObject) (req : ReqObject) (res : ResObject) :
    MiddlewareResult :=
  if err.ingested then
    { errAfter := err
      posted := none
      sendResult := Except.ok ()
      nextCalledWith := some err }
  else
    let errMarked := { err with ingested := true }
    { errAfter := errMarked
      posted := some (buildErrorEvent now err req res)
      sendResult := sendErrorEvent outcome
      nextCalledWith := some errMarked }

/-- Repeated delivery of the same error object through the middleware,
threading the (mutated) error and counting HTTP posts. -/
def iterateMiddleware (now : String) (outcome : SendOutcome)
    (req : ReqObject) (res : ResObject) :
    Nat → ErrObject → ErrObject × Nat
  | 0, e => (e, 0)
  | n + 1, e =>
    let r := errorIngestionMiddleware now outcome e req res
    let p := iterateMiddleware now outcome req res n r.errAfter
    (p.1, (if r.posted.isSome then 1 else 0) + p.2)

/-! ## Backend analysis pipeline

The FastAPI/Celery backend (app/main.py, app/tasks.py, app/celery_app.py)
is not part of this source tree; only its setup document
(src/unnamed/part_004) and the spec describe it.  The definitions below
are therefore modelled from the spec. -/

/-- A stored error event row (id, nullable status code, message,
nullable stack trace). -/
structure StoredEvent where
  id : Nat
  status_code : Option Int
  message : String
  stack : Option String
deriving DecidableEq, Repr

/-- A persisted analysis row in the `error_analysis` table. -/
structure AnalysisRecord where
  error_event_id : Nat
  analysis_text : String
  model : String
  has_source_code : Bool
deriving DecidableEq, Repr

/-- Database plus queue state shared by the ingestion path and the
workers. -/
structure PipelineState where
  events : List StoredEvent
  analyses : List AnalysisRecord
  queue : List Nat
deriving DecidableEq, Repr

/-- Modelled from the spec: the Trigger Policy `decide(event)` of the
missing backend enqueue path — enqueue only when
`event.status_code != null AND event.status_code >= 500`. -/
def shouldEnqueue : Option Int → Bool
  | some n => 500 ≤ n
  | none => false

/-- Modelled from the spec: the missing `/api/v1/events` ingestion path —
store the event, then enqueue a task on the `ai_analysis` channel when
the Trigger Policy fires. -/
def ingestEvent (s : PipelineState) (e : StoredEvent) : PipelineState :=
  { s with
    events := s.events ++ [e]
    queue := if shouldEnqueue e.status_code then s.queue ++ [e.id]
             else s.queue }

/-- Look up an event row by id. -/
def findEvent (s : PipelineState) (eid : Nat) : Option StoredEvent :=
  s.events.find? (fun e => e.id == eid)

/-- Does an analysis row exist for this event id? -/
def hasAnalysis (s : PipelineState) (eid : Nat) : Bool :=
  s.analyses.any (fun a => a.error_event_id == eid)

/-- Number of analysis rows keyed to this event id. -/
def countAnalyses (s : PipelineState) (eid : Nat) : Nat :=
  (s.analyses.filter (fun a => a.error_event_id == eid)).length

/-- Modelled from the spec: the missing `perform_ai_analysis` of
app/tasks.py (currently a mocked LLM call). -/
def performAiAnalysis (e : StoredEvent) : AnalysisRecord :=
  { error_event_id := e.id
    analysis_text := "mock analysis of " ++ e.message
    model := "mock-llm"
    has_source_code := false }

/-- Modelled from the spec: one successful worker execution of the
missing analysis task — fetch the event, skip when `status_code < 500`,
skip when an analysis already exists, otherwise persist one analysis
row. -/
def processTask (s : PipelineState) (eid : Nat) : PipelineState :=
  match findEvent s eid with
  | none => s
  | some e =>
    if !shouldEnqueue e.status_code then s
    else if hasAnalysis s eid then s
    else { s with analyses := s.analyses ++ [performAiAnalysis e] }

/-- One worker delivery attempt: an attempt that raises leaves the
database untouched, a successful one runs the workflow. -/
def attemptTask (s : PipelineState) (eid : Nat) (ok : Bool) :
    PipelineState :=
  if ok then processTask s eid else s

/-! ## Retry / backoff state machine (modelled from the spec) -/

/-- Task lifecycle state of the retry state machine. -/
inductive TaskLifecycle where
  | pending
  | inFlight
  | succeeded
  | retryScheduled
  | dead
deriving DecidableEq, Repr

/-- A durable task record with its delivery metadata. -/
structure TaskRecord where
  errorEventId : Nat
  attempts : Nat
  lifecycle : TaskLifecycle
  nextEligible : Nat
deriving DecidableEq, Repr

/-- Modelled from the spec: the maximum number of attempts in total. -/
def maxAttempts : Nat := 3

/-- Modelled from the spec: exponential backoff from the attempt count,
capped at a maximum delay of 600 seconds (10 minutes). -/
def backoffDelay (attempt : Nat) : Nat :=
  min (2 ^ attempt) 600

/-- A freshly enqueued task for an event. -/
def freshTask (eid : Nat) : TaskRecord :=
  { errorEventId := eid, attempts := 0, lifecycle := .pending
    nextEligible := 0 }

/-- Modelled from the spec: the failure transition — the attempt counter
increments; below the attempt budget the task is rescheduled with
backoff, otherwise it moves to the dead state. -/
def onFailure (t : TaskRecord) (now : Nat) : TaskRecord :=
  let a := t.attempts + 1
  if maxAttempts ≤ a then
    { t with attempts := a, lifecycle := .dead }
  else
    { t with attempts := a, lifecycle := .retryScheduled
             nextEligible := now + backoffDelay a }

/-- Modelled from the spec: run a sequence of delivery attempts
(`true` = the workflow completes, `false` = it raises); dead and
succeeded tasks are never delivered again. -/
def runAttempts : List Bool → TaskRecord → Nat → TaskRecord
  | [], t, _ => t
  | o :: rest, t, now =>
    if t.lifecycle = .dead ∨ t.lifecycle = .succeeded then t
    else if o then runAttempts rest { t with lifecycle := .succeeded } now
    else runAttempts rest (onFailure t now) now

/-! ## Frontend read surface -/

/-- Field names declared by the `ErrorAnalysis` interface in
src/frontend/lib/api.ts. -/
def errorAnalysisInterfaceFields : List String :=
  ["id", "error_event_id", "analysis_text", "model", "confidence",
   "created_at"]

/-- Properties of the `analysis` object read by the `ErrorDetailPage`
component in src/unnamed/part_003. -/
def errorDetailPageAnalysisReads : List String :=
  ["model", "confidence", "has_source_code", "analysis_text",
   "created_at"]

/-! ## Browser localStorage and the API token keys -/

/-- A browser localStorage instance: a list of key/value pairs with
unique keys. -/
abbrev LocalStorage : Type := List (String × String)

/-- `localStorage.getItem`. -/
def getItem (st : LocalStorage) (k : String) : Option String :=
  ((List.find? (fun p => p.1 == k) st)).map (fun p => p.2)

/-- `localStorage.setItem`. -/
def setItem (st : LocalStorage) (k v : String) : LocalStorage :=
  (k, v) :: List.filter (fun p => p.1 != k) st

/-- `localStorage.removeItem`. -/
def removeItem (st : LocalStorage) (k : String) : LocalStorage :=
  List.filter (fun p => p.1 != k) st

/-- The `API_TOKEN_KEY` constant of src/frontend/lib/api.ts. -/
def API_TOKEN_KEY : String := "debug_ai_api_token"

/-- `setApiToken` of src/frontend/lib/api.ts (client side). -/
def setApiToken (token : String) (st : LocalStorage) : LocalStorage :=
  setItem st API_TOKEN_KEY token

/-- `clearApiToken` of src/frontend/lib/api.ts (client side). -/
def clearApiToken (st : LocalStorage) : LocalStorage :=
  removeItem st API_TOKEN_KEY

/-- The localStorage key read by the pre-fetch wait of the
`ErrorDetailPage` in src/unnamed/part_003. -/
def detailPageTokenKey : String := "stackwise_api_token"

/-- How the error-detail page's pre-fetch wait resolves. -/
inductive FetchWait where
  | immediate
  | waitForSyncOrTimeout
deriving DecidableEq, Repr

/-- The pre-fetch wait of `ErrorDetailPage`: resolve immediately when
`localStorage.getItem('stackwise_api_token')` is truthy, otherwise wait
for the `user-synced` event or the 2000 ms timeout. -/
def detailPagePreFetchWait (st : LocalStorage) : FetchWait :=
  match getItem st detailPageTokenKey with
  | some tk => if tk ≠ "" then .immediate else .waitForSyncOrTimeout
  | none => .waitForSyncOrTimeout

/-- Token-management operations offered by the API client. -/
inductive TokenOp where
  | set (t : String)
  | clear
deriving DecidableEq, Repr

/-- Apply one API-client token operation to a storage. -/
def applyTokenOp (op : TokenOp) (st : LocalStorage) : LocalStorage :=
  match op with
  | .set t => setApiToken t st
  | .clear => clearApiToken st

/-- Apply a sequence of API-client token operations to a storage. -/
def applyTokenOps (ops : List TokenOp) (st : LocalStorage) :
    LocalStorage :=
  ops.foldl (fun s op => applyTokenOp op s) st

/-! ## Sample values used by the witnesses -/

/-- A sample unmarked error object. -/
def sampleErr : ErrObject :=
  { message := "boom", stack := some "Error: boom at a.js:10"
    statusCode := none, errStatus := none, ingested := false }

/-- A sample request. -/
def sampleReq : ReqObject :=
  { method := "GET", originalUrl := some "/users/123?page=1"
    path := "/users/123" }

/-- A sample response in its default state. -/
def sampleRes : ResObject := { statusCode := 200 }

/-- A sample stored event below the analysis threshold. -/
def event404 : StoredEvent :=
  { id := 7, status_code := some 404, message := "not found", stack := none }

/-- A sample stored event at the analysis threshold. -/
def event500 : StoredEvent :=
  { id := 1, status_code := some 500, message := "boom"
    stack := some "Error: boom at a.js:10" }

/-- The empty pipeline state. -/
def emptyState : PipelineState := { events := [], analyses := [], queue := [] }

/-! ## Support lemmas -/

theorem hexRun_mem {n : Nat} {l r : List Char} (h : hexRun n l = some r) :
    ∀ c, c ∈ r → c ∈ l := by
  induction n generalizing l with
  | zero =>
    simp only [hexRun, Option.some.injEq] at h
    subst h; intro c hc; exact hc
  | succ n ih =>
    cases l with
    | nil => simp [hexRun] at h
    | cons a t =>
      rw [hexRun] at h
      by_cases ha : isHexChar a
      · rw [if_pos ha] at h
        intro c hc
        exact List.mem_cons_of_mem _ (ih h c hc)
      · rw [if_neg ha] at h; exact absurd h (by simp)

theorem matchUuid_none_of_no_dash {l : List Char} (h : ∀ c ∈ l, c ≠ '-') :
    matchUuid l = none := by
  unfold matchUuid
  cases h8 : hexRun 8 l with
  | none => simp [h8]
  | some r =>
    have hr : dashChar r = none := by
      cases r with
      | nil => rfl
      | cons a t =>
        have ha : a ≠ '-' := h a (hexRun_mem h8 a (List.mem_cons_self a t))
        simp [dashChar, ha]
    simp [h8, hr]

theorem replaceUUIDs_of_no_dash :
    ∀ l : List Char, (∀ c ∈ l, c ≠ '-') → replaceUUIDs l = l := by
  intro l
  induction l with
  | nil => intro _; simp [replaceUUIDs]
  | cons c rest ih =>
    intro h
    have hm : matchUuid rest = none :=
      matchUuid_none_of_no_dash (fun d hd => h d (List.mem_cons_of_mem _ hd))
    simp only [replaceUUIDs, hm, Option.isSome_none, Bool.and_false,
      Bool.false_eq_true, if_false, ite_false]
    simp [ih (fun d hd => h d (List.mem_cons_of_mem _ hd))]

theorem dropWhile_append_forall (p : Char → Bool)
    (l r : List Char) (h : ∀ c ∈ l, p c = true) :
    List.dropWhile p (l ++ r) = List.dropWhile p r := by
  induction l with
  | nil => simp
  | cons a t ih =>
    have ha : p a = true := h a (List.mem_cons_self a t)
    simp [List.dropWhile_cons, ha,
      ih (fun c hc => h c (List.mem_cons_of_mem _ hc))]

theorem replaceNums_users_orders (d e : Char) (ds es : List Char)
    (hd0 : d.isDigit = true) (he0 : e.isDigit = true)
    (hds : ∀ c ∈ ds, c.isDigit = true) (hes : ∀ c ∈ es, c.isDigit = true) :
    replaceNums
      ('/' :: 'u' :: 's' :: 'e' :: 'r' :: 's' :: '/' :: d ::
        (ds ++ ('/' :: 'o' :: 'r' :: 'd' :: 'e' :: 'r' :: 's' :: '/' :: e :: es)))
      = "/users/:id/orders/:id".data := by
  have h1 : List.dropWhile Char.isDigit
      (ds ++ ('/' :: 'o' :: 'r' :: 'd' :: 'e' :: 'r' :: 's' :: '/' :: e :: es))
      = '/' :: 'o' :: 'r' :: 'd' :: 'e' :: 'r' :: 's' :: '/' :: e :: es := by
    rw [dropWhile_append_forall _ _ _ hds]; simp [List.dropWhile_cons]
  have h2 : List.dropWhile Char.isDigit es = [] :=
    List.dropWhile_eq_nil_iff.mpr hes
  simp +decide [replaceNums, startsDigit, hd0, he0, h1, h2,
    List.dropWhile_cons]

theorem sanitizeChars_users_orders (d e : Char) (ds es : List Char)
    (hd0 : d.isDigit = true) (he0 : e.isDigit = true)
    (hds : ∀ c ∈ ds, c.isDigit = true) (hes : ∀ c ∈ es, c.isDigit = true) :
    sanitizeChars ("/users/".data ++ d :: ds ++ ("/orders/".data ++ e :: es))
      = "/users/:id/orders/:id".data := by
  have hdig : ∀ c : Char, c.isDigit = true → c ≠ '-' := by
    intro c hcd heq; subst heq; exact absurd hcd (by decide)
  have hL : ("/users/".data ++ d :: ds ++ ("/orders/".data ++ e :: es))
      = '/' :: 'u' :: 's' :: 'e' :: 'r' :: 's' :: '/' :: d ::
        (ds ++ ('/' :: 'o' :: 'r' :: 'd' :: 'e' :: 'r' :: 's' :: '/' :: e :: es)) := by
    simp
  have hnd : ∀ c ∈ ('/' :: 'u' :: 's' :: 'e' :: 'r' :: 's' :: '/' :: d ::
      (ds ++ ('/' :: 'o' :: 'r' :: 'd' :: 'e' :: 'r' :: 's' :: '/' :: e :: es))),
      c ≠ '-' := by
    intro c hc
    simp only [List.mem_cons, List.mem_append] at hc
    rcases hc with rfl|rfl|rfl|rfl|rfl|rfl|rfl|rfl|hc
    · decide
    · decide
    · decide
    · decide
    · decide
    · decide
    · decide
    · exact hdig _ hd0
    rcases hc with hc|hc
    · exact hdig c (hds c hc)
    rcases hc with rfl|rfl|rfl|rfl|rfl|rfl|rfl|rfl|rfl|hc
    · decide
    · decide
    · decide
    · decide
    · decide
    · decide
    · decide
    · decide
    · exact hdig _ he0
    · exact hdig c (hes c hc)
  rw [hL]
  show replaceNums (replaceUUIDs _) = _
  rw [replaceUUIDs_of_no_dash _ hnd]
  exact replaceNums_users_orders d e ds es hd0 he0 hds hes


theorem sendErrorEvent_ok (outcome : SendOutcome) :
    sendErrorEvent outcome = Except.ok () := by
  cases outcome <;> rfl

theorem middleware_marked (now : String) (outcome : SendOutcome)
    (err : ErrObject) (req : ReqObject) (res : ResObject)
    (h : err.ingested = true) :
    errorIngestionMiddleware now outcome err req res
      = { errAfter := err, posted := none, sendResult := Except.ok ()
          nextCalledWith := some err } := by
  simp [errorIngestionMiddleware, h]

theorem middleware_unmarked (now : String) (outcome : SendOutcome)
    (err : ErrObject) (req : ReqObject) (res : ResObject)
    (h : err.ingested = false) :
    errorIngestionMiddleware now outcome err req res
      = { errAfter := { err with ingested := true }
          posted := some (buildErrorEvent now err req res)
          sendResult := sendErrorEvent outcome
          nextCalledWith := some { err with ingested := true } } := by
  simp [errorIngestionMiddleware, h]

theorem iterate_marked (now : String) (outcome : SendOutcome)
    (req : ReqObject) (res : ResObject) :
    ∀ (n : Nat) (e : ErrObject), e.ingested = true →
      iterateMiddleware now outcome req res n e = (e, 0) := by
  intro n
  induction n with
  | zero => intro e _; rfl
  | succ k ih =>
    intro e he
    rw [iterateMiddleware, middleware_marked now outcome e req res he]
    simp [ih e he]

theorem iterate_unmarked (now : String) (outcome : SendOutcome)
    (req : ReqObject) (res : ResObject) (n : Nat) (e : ErrObject)
    (he : e.ingested = false) :
    iterateMiddleware now outcome req res (n + 1) e
      = ({ e with ingested := true }, 1) := by
  rw [iterateMiddleware, middleware_unmarked now outcome e req res he]
  simp [iterate_marked now outcome req res n { e with ingested := true } rfl]

theorem find?_filter_keys (k k2 : String) (hk : k ≠ k2) :
    ∀ st : List (String × String),
      List.find? (fun p => p.1 == k2) (List.filter (fun p => p.1 != k) st)
        = List.find? (fun p => p.1 == k2) st := by
  intro st
  induction st with
  | nil => rfl
  | cons a t ih =>
    by_cases h : a.1 = k
    · have hb : (a.1 != k) = false := by simp [h]
      have hb2 : (a.1 == k2) = false := by
        simp only [beq_eq_false_iff_ne, ne_eq]
        intro hEq; rw [h] at hEq; exact hk hEq
      simp [List.filter_cons, hb, List.find?_cons, hb2, ih]
    · have hb : (a.1 != k) = true := by simp [h]
      by_cases h2 : a.1 = k2
      · have hb2 : (a.1 == k2) = true := by simp [h2]
        simp [List.filter_cons, hb, List.find?_cons, hb2]
      · have hb2 : (a.1 == k2) = false := by simp [h2]
        simp [List.filter_cons, hb, List.find?_cons, hb2, ih]

theorem applyTokenOp_keys (op : TokenOp) (st : LocalStorage)
    (h : ∀ p ∈ st, p.1 = API_TOKEN_KEY) :
    ∀ p ∈ applyTokenOp op st, p.1 = API_TOKEN_KEY := by
  cases op with
  | set t =>
    intro p hp
    simp only [applyTokenOp, setApiToken, setItem, List.mem_cons] at hp
    rcases hp with rfl|hp
    · rfl
    · exact h p (List.mem_of_mem_filter hp)
  | clear =>
    intro p hp
    exact h p (List.mem_of_mem_filter hp)

theorem applyTokenOps_keys :
    ∀ (ops : List TokenOp) (st : LocalStorage),
      (∀ p ∈ st, p.1 = API_TOKEN_KEY) →
      ∀ p ∈ applyTokenOps ops st, p.1 = API_TOKEN_KEY := by
  intro ops
  induction ops with
  | nil => intro st h; simpa [applyTokenOps] using h
  | cons op rest ih =>
    intro st h
    have hfold : applyTokenOps (op :: rest) st
        = applyTokenOps rest (applyTokenOp op st) := by
      simp [applyTokenOps]
    rw [hfold]
    exact ih _ (applyTokenOp_keys op st h)

theorem getItem_none_of_keys (st : LocalStorage)
    (h : ∀ p ∈ st, p.1 = API_TOKEN_KEY) :
    getItem st detailPageTokenKey = none := by
  unfold getItem
  rw [List.find?_eq_none.mpr]
  · rfl
  · intro p hp
    rw [h p hp]
    decide


theorem countAnalyses_zero_iff (s : PipelineState) (eid : Nat) :
    countAnalyses s eid = 0 ↔ hasAnalysis s eid = false := by
  unfold countAnalyses hasAnalysis
  rw [List.length_eq_zero, List.filter_eq_nil_iff, List.any_eq_false]

theorem findEvent_id {s : PipelineState} {eid : Nat} {e : StoredEvent}
    (h : findEvent s eid = some e) : e.id = eid := by
  unfold findEvent at h
  have := List.find?_some h
  simpa using this

theorem countAnalyses_append (s : PipelineState) (eid : Nat)
    (l : List AnalysisRecord) (a : AnalysisRecord) :
    countAnalyses { s with analyses := l ++ [a] } eid
      = (l.filter (fun x => x.error_event_id == eid)).length
        + (if a.error_event_id == eid then 1 else 0) := by
  unfold countAnalyses
  rw [List.filter_append, List.length_append]
  by_cases h : a.error_event_id == eid
  · simp [h]
  · simp [h]

theorem processTask_no_event {s : PipelineState} {eid : Nat}
    (h : findEvent s eid = none) : processTask s eid = s := by
  unfold processTask; rw [h]

theorem processTask_below {s : PipelineState} {eid : Nat} {e : StoredEvent}
    (h : findEvent s eid = some e)
    (hsc : shouldEnqueue e.status_code = false) :
    processTask s eid = s := by
  unfold processTask; rw [h]; simp [hsc]

theorem processTask_already {s : PipelineState} {eid : Nat} {e : StoredEvent}
    (h : findEvent s eid = some e)
    (ha : hasAnalysis s eid = true) :
    processTask s eid = s := by
  unfold processTask; rw [h]
  by_cases hsc : shouldEnqueue e.status_code
  · simp [hsc, ha]
  · simp [hsc]

theorem processTask_persist {s : PipelineState} {eid : Nat} {e : StoredEvent}
    (h : findEvent s eid = some e)
    (hsc : shouldEnqueue e.status_code = true)
    (ha : hasAnalysis s eid = false) :
    processTask s eid
      = { s with analyses := s.analyses ++ [performAiAnalysis e] } := by
  unfold processTask; rw [h]; simp [hsc, ha]

theorem backoffDelay_le (a : Nat) : backoffDelay a ≤ 600 :=
  Nat.min_le_right _ _

theorem runAttempts_dead :
    ∀ (os : List Bool) (t : TaskRecord) (now : Nat),
      t.lifecycle = TaskLifecycle.dead → runAttempts os t now = t := by
  intro os
  induction os with
  | nil => intro t now _; rfl
  | cons o rest ih =>
    intro t now h
    rw [runAttempts]
    rw [if_pos (Or.inl h)]

theorem runAttempts_attempts_le :
    ∀ (os : List Bool) (t : TaskRecord) (now : Nat),
      t.attempts ≤ maxAttempts →
      (maxAttempts ≤ t.attempts → t.lifecycle = TaskLifecycle.dead) →
      (runAttempts os t now).attempts ≤ maxAttempts := by
  intro os
  induction os with
  | nil => intro t now h1 _; exact h1
  | cons o rest ih =>
    intro t now h1 h2
    rw [runAttempts]
    by_cases hterm : t.lifecycle = TaskLifecycle.dead
        ∨ t.lifecycle = TaskLifecycle.succeeded
    · rw [if_pos hterm]; exact h1
    · rw [if_neg hterm]
      have hlt : t.attempts < maxAttempts := by
        rcases Nat.lt_or_ge t.attempts maxAttempts with h|h
        · exact h
        · exact absurd (Or.inl (h2 h)) hterm
      cases o with
      | true =>
        rw [if_pos rfl]
        exact ih _ now (by simpa using h1)
          (fun hge => absurd (by simpa using hge) (Nat.not_le_of_lt hlt))
      | false =>
        rw [if_neg (by simp)]
        unfold onFailure
        by_cases hd : maxAttempts ≤ t.attempts + 1
        · rw [if_pos hd]
          exact ih _ now (by simpa using Nat.succ_le_of_lt hlt) (fun _ => rfl)
        · rw [if_neg hd]
          exact ih _ now (by simpa using Nat.succ_le_of_lt hlt)
            (fun hge => absurd (by simpa using hge) hd)

theorem runAttempts_all_fail (eid now : Nat) :
    ∀ os : List Bool, (∀ o ∈ os, o = false) → 3 ≤ os.length →
      (runAttempts os (freshTask eid) now).lifecycle = TaskLifecycle.dead
      ∧ (runAttempts os (freshTask eid) now).attempts = 3 := by
  intro os hfalse hlen
  rcases os with _ | ⟨o1, _ | ⟨o2, _ | ⟨o3, rest⟩⟩⟩
  · simp at hlen
  · simp at hlen
  · simp at hlen
  have h1 : o1 = false := hfalse o1 (by simp)
  have h2 : o2 = false := hfalse o2 (by simp)
  have h3 : o3 = false := hfalse o3 (by simp)
  subst h1; subst h2; subst h3
  have h4 : runAttempts (false :: false :: false :: rest) (freshTask eid) now
      = runAttempts rest
          { errorEventId := eid, attempts := 3,
            lifecycle := TaskLifecycle.dead,
            nextEligible := now + backoffDelay 2 } now := by
    simp [runAttempts, onFailure, freshTask, maxAttempts]
  rw [h4, runAttempts_dead rest _ now rfl]
  exact ⟨rfl, rfl⟩

theorem foldl_attempt_fail (eid : Nat) :
    ∀ (os : List Bool) (s : PipelineState), (∀ o ∈ os, o = false) →
      List.foldl (fun st o => attemptTask st eid o) s os = s := by
  intro os
  induction os with
  | nil => intro s _; rfl
  | cons o rest ih =>
    intro s h
    have ho : o = false := h o (by simp)
    subst ho
    rw [List.foldl_cons]
    rw [show attemptTask s eid false = s from rfl]
    exact ih s (fun x hx => h x (by simp [hx]))


/-! ## Claim theorems -/

/-- Claim C4: for every error, request, response and every outcome of
the HTTP send (success, rejection, network error, timeout), the
ingestion middleware never raises, swallows the send failure internally
(`sendErrorEvent` always returns `ok`), always invokes `next` with the
error object (whose data fields are untouched), and its observable
behaviour does not depend on the send outcome, so the request path is
never blocked on the send. -/
theorem c4_middleware_never_fails (now : String) (outcome : SendOutcome)
    (err : ErrObject) (req : ReqObject) (res : ResObject) :
    (errorIngestionMiddleware now outcome err req res).nextCalledWith
      = some (errorIngestionMiddleware now outcome err req res).errAfter
  ∧ ((errorIngestionMiddleware now outcome err req res).errAfter.message
        = err.message
      ∧ (errorIngestionMiddleware now outcome err req res).errAfter.stack
        = err.stack
      ∧ (errorIngestionMiddleware now outcome err req res).errAfter.statusCode
        = err.statusCode
      ∧ (errorIngestionMiddleware now outcome err req res).errAfter.errStatus
        = err.errStatus)
  ∧ (errorIngestionMiddleware now outcome err req res).sendResult
      = Except.ok ()
  ∧ sendErrorEvent outcome = Except.ok ()
  ∧ (∀ outcome2 : SendOutcome,
      errorIngestionMiddleware now outcome err req res
        = errorIngestionMiddleware now outcome2 err req res) := by
  by_cases h : err.ingested
  · rw [middleware_marked now outcome err req res h]
    refine ⟨rfl, ⟨rfl, rfl, rfl, rfl⟩, rfl, sendErrorEvent_ok outcome, ?_⟩
    intro o2
    rw [middleware_marked now o2 err req res h]
  · have hb : err.ingested = false := by simpa using h
    rw [middleware_unmarked now outcome err req res hb]
    refine ⟨rfl, ⟨rfl, rfl, rfl, rfl⟩, sendErrorEvent_ok outcome,
      sendErrorEvent_ok outcome, ?_⟩
    intro o2
    rw [middleware_unmarked now o2 err req res hb, sendErrorEvent_ok outcome,
      sendErrorEvent_ok o2]

/-- Claim C5 counterexample: capturing an unmarked error is not
side-effect-free on the error value — the middleware attaches the
ingestion marker to the error object, so the object passed on differs
from the one passed in. -/
theorem c5_shim_counterexample :
    (errorIngestionMiddleware "2024-01-15T12:00:00Z" SendOutcome.delivered
        sampleErr sampleReq sampleRes).errAfter.ingested = true
  ∧ sampleErr.ingested = false
  ∧ (decide ((errorIngestionMiddleware "2024-01-15T12:00:00Z"
        SendOutcome.delivered sampleErr sampleReq
        sampleRes).errAfter = sampleErr)) = false := by
  refine ⟨rfl, rfl, ?_⟩
  rw [middleware_unmarked "2024-01-15T12:00:00Z" SendOutcome.delivered
    sampleErr sampleReq sampleRes rfl]
  decide

/-- Claim C5 (amended): capturing an unmarked error serializes and posts
it, and mutates the error object in exactly one way — the
`Symbol.for('error_ingested')` marker is set to true; all data fields of
the error are unchanged, and the marker is not a field of the posted
event. -/
theorem c5_marker_mutation (now : String) (outcome : SendOutcome)
    (err : ErrObject) (req : ReqObject) (res : ResObject)
    (h : err.ingested = false) :
    (errorIngestionMiddleware now outcome err req res).errAfter
      = { err with ingested := true }
  ∧ (errorIngestionMiddleware now outcome err req res).posted
      = some (buildErrorEvent now err req res) := by
  rw [middleware_unmarked now outcome err req res h]
  exact ⟨rfl, rfl⟩

/-- Claim C5 amended witness at a concrete error. -/
theorem c5_marker_mutation_witness :
    (errorIngestionMiddleware "t0" SendOutcome.delivered sampleErr sampleReq
        sampleRes).errAfter = { sampleErr with ingested := true } :=
  (c5_marker_mutation "t0" SendOutcome.delivered sampleErr sampleReq
    sampleRes rfl).1

/-- Claim C6: delivering the same error object to the middleware any
number of times yields at most one HTTP post; an unmarked error
delivered at least once yields exactly one post, and a marked error is
never posted again and is only forwarded to `next`. -/
theorem c6_ingestion_idempotent (now : String) (outcome : SendOutcome)
    (req : ReqObject) (res : ResObject) (err : ErrObject) (n : Nat) :
    (iterateMiddleware now outcome req res n err).2 ≤ 1
  ∧ (err.ingested = false → 1 ≤ n →
      (iterateMiddleware now outcome req res n err).2 = 1)
  ∧ (err.ingested = true →
      (iterateMiddleware now outcome req res n err).2 = 0
      ∧ (errorIngestionMiddleware now outcome err req res).posted = none
      ∧ (errorIngestionMiddleware now outcome err req res).nextCalledWith
          = some err) := by
  refine ⟨?_, ?_, ?_⟩
  · by_cases h : err.ingested
    · rw [iterate_marked now outcome req res n err h]
      simp
    · have hb : err.ingested = false := by simpa using h
      cases n with
      | zero => simp [iterateMiddleware]
      | succ k =>
        rw [iterate_unmarked now outcome req res k err hb]
  · intro hb hn
    cases n with
    | zero => omega
    | succ k =>
      rw [iterate_unmarked now outcome req res k err hb]
  · intro hb
    refine ⟨?_, ?_, ?_⟩
    · rw [iterate_marked now outcome req res n err hb]
    · rw [middleware_marked now outcome err req res hb]
    · rw [middleware_marked now outcome err req res hb]

/-- Claim C6 witness: two deliveries of a concrete unmarked error post
exactly once. -/
theorem c6_ingestion_idempotent_witness :
    (iterateMiddleware "t0" SendOutcome.delivered sampleReq sampleRes 2
        sampleErr).2 = 1 :=
  (c6_ingestion_idempotent "t0" SendOutcome.delivered sampleReq sampleRes
    sampleErr 2).2.1 rfl (by decide)


/-- Claim C7: the `ErrorAnalysis` interface of the analysis read surface
(src/frontend/lib/api.ts) does not declare the `has_source_code` field,
although the `ErrorDetailPage` component reads `analysis.has_source_code`
from the very objects typed by that interface. -/
theorem c7_has_source_code_missing :
    errorAnalysisInterfaceFields.contains "has_source_code" = false
  ∧ errorDetailPageAnalysisReads.contains "has_source_code" = true := by
  constructor
  · decide
  · decide

/-- Claim C9: when the error object carries no truthy `statusCode` or
`status` property, the posted status code is the response status when
that is set and not 200, and 500 otherwise; in particular a default-200
response reports 500, which crosses the analysis trigger threshold. -/
theorem c9_status_fallback (err : ErrObject) (res : ResObject)
    (h1 : truthyNum err.statusCode = false)
    (h2 : truthyNum err.errStatus = false) :
    (res.statusCode ≠ 0 → res.statusCode ≠ 200 →
      computeStatusCode err res = res.statusCode)
  ∧ (res.statusCode = 0 ∨ res.statusCode = 200 →
      computeStatusCode err res = 500)
  ∧ (res.statusCode = 200 →
      shouldEnqueue (some (computeStatusCode err res)) = true)
  ∧ (∀ (now : String) (req : ReqObject),
      (buildErrorEvent now err req res).status_code
        = computeStatusCode err res) := by
  have hsc : truthyNum (jsOrNum err.statusCode err.errStatus) = false := by
    unfold jsOrNum
    by_cases h : truthyNum err.statusCode
    · rw [h1] at h; exact absurd h (by simp)
    · rw [if_neg h]; exact h2
  refine ⟨?_, ?_, ?_, fun now req => rfl⟩
  · intro hz h200
    simp [computeStatusCode, hsc, hz, h200]
  · intro hor
    rcases hor with h|h <;> simp [computeStatusCode, hsc, h]
  · intro h200
    simp [computeStatusCode, hsc, h200, shouldEnqueue]

/-- Claim C9 witness: an unlabeled error on a default-200 response is
reported with status 500. -/
theorem c9_status_fallback_witness :
    computeStatusCode sampleErr sampleRes = 500 :=
  (c9_status_fallback sampleErr sampleRes rfl rfl).2.1 (Or.inr rfl)

/-- Claim C10: the API client stores its token under
`debug_ai_api_token` while the error-detail page's pre-fetch wait reads
`stackwise_api_token`; tokens stored via `setApiToken` are invisible to
that check, and on any storage produced by the API client's token
operations alone, the page always waits for the `user-synced` event or
the 2-second timeout. -/
theorem c10_token_key_mismatch :
    (API_TOKEN_KEY == detailPageTokenKey) = false
  ∧ (∀ (st : LocalStorage) (t : String),
      getItem (setApiToken t st) detailPageTokenKey
        = getItem st detailPageTokenKey)
  ∧ (∀ ops : List TokenOp,
      detailPagePreFetchWait (applyTokenOps ops [])
        = FetchWait.waitForSyncOrTimeout) := by
  refine ⟨by decide, ?_, ?_⟩
  · intro st t
    unfold getItem setApiToken setItem
    rw [List.find?_cons]
    have hb : (((API_TOKEN_KEY, t)).1 == detailPageTokenKey) = false := by
      show (API_TOKEN_KEY == detailPageTokenKey) = false
      decide
    simp only [hb]
    rw [find?_filter_keys API_TOKEN_KEY detailPageTokenKey (by decide) st]
  · intro ops
    unfold detailPagePreFetchWait
    rw [getItem_none_of_keys (applyTokenOps ops [])
      (applyTokenOps_keys ops [] (by intro p hp; simp at hp))]

/-- Claim C10 witness: after storing a token through the API client, the
detail page pre-fetch check still finds nothing and waits. -/
theorem c10_token_key_mismatch_witness :
    detailPagePreFetchWait (applyTokenOps [TokenOp.set "tok"] [])
      = FetchWait.waitForSyncOrTimeout :=
  (c10_token_key_mismatch).2.2 [TokenOp.set "tok"]


/-- Claim C1: at most one analysis row ever exists per error event — a
worker that dequeues a task for an event whose analysis already exists
skips the analysis, delivering the same task twice to a fresh event
persists exactly one analysis row, and the at-most-one invariant is
preserved by every task execution. -/
theorem c1_analysis_unique (s : PipelineState) (eid : Nat) :
    (hasAnalysis s eid = true → processTask s eid = s)
  ∧ (∀ e : StoredEvent, countAnalyses s eid = 0 → findEvent s eid = some e →
      shouldEnqueue e.status_code = true →
      countAnalyses (processTask (processTask s eid) eid) eid = 1)
  ∧ (countAnalyses s eid ≤ 1 → countAnalyses (processTask s eid) eid ≤ 1) := by
  refine ⟨?_, ?_, ?_⟩
  · intro ha
    cases hfe : findEvent s eid with
    | none => exact processTask_no_event hfe
    | some e => exact processTask_already hfe ha
  · intro e h0 hfe hsc
    have hna : hasAnalysis s eid = false := (countAnalyses_zero_iff s eid).mp h0
    have hid : e.id = eid := findEvent_id hfe
    have hstep : processTask s eid
        = { s with analyses := s.analyses ++ [performAiAnalysis e] } :=
      processTask_persist hfe hsc hna
    have hfilter : (s.analyses.filter (fun x => x.error_event_id == eid)) = [] := by
      unfold countAnalyses at h0
      exact List.length_eq_zero.mp h0
    have hcount1 : countAnalyses (processTask s eid) eid = 1 := by
      rw [hstep, countAnalyses_append, hfilter]
      simp [performAiAnalysis, hid]
    have hfe2 : findEvent (processTask s eid) eid = some e := by
      rw [hstep]; exact hfe
    have hha2 : hasAnalysis (processTask s eid) eid = true := by
      by_contra hco
      have hz : countAnalyses (processTask s eid) eid = 0 :=
        (countAnalyses_zero_iff _ _).mpr (by simpa using hco)
      rw [hz] at hcount1
      exact absurd hcount1 (by decide)
    rw [processTask_already hfe2 hha2]
    exact hcount1
  · intro hle
    cases hfe : findEvent s eid with
    | none => rw [processTask_no_event hfe]; exact hle
    | some e =>
      by_cases hsc : shouldEnqueue e.status_code
      · by_cases ha : hasAnalysis s eid
        · rw [processTask_already hfe ha]; exact hle
        · have hna : hasAnalysis s eid = false := by simpa using ha
          have h0 : countAnalyses s eid = 0 :=
            (countAnalyses_zero_iff s eid).mpr hna
          have hid : e.id = eid := findEvent_id hfe
          have hfilter :
              (s.analyses.filter (fun x => x.error_event_id == eid)) = [] := by
            unfold countAnalyses at h0
            exact List.length_eq_zero.mp h0
          rw [processTask_persist hfe hsc hna, countAnalyses_append, hfilter]
          simp [performAiAnalysis, hid]
      · have hsc2 : shouldEnqueue e.status_code = false := by simpa using hsc
        rw [processTask_below hfe hsc2]; exact hle

/-- Claim C1 witness: ingesting one 500 event and delivering its task
twice leaves exactly one analysis row. -/
theorem c1_analysis_unique_witness :
    countAnalyses
      (processTask (processTask (ingestEvent emptyState event500) 1) 1) 1
      = 1 :=
  (c1_analysis_unique (ingestEvent emptyState event500) 1).2.1 event500
    (by decide) (by decide) (by decide)

/-- Claim C2: an analysis task is enqueued for a stored event iff its
status code is non-null and at least 500; a 404 event is stored but
never enqueued, and even a spuriously delivered task for a below-
threshold event never produces an analysis row. -/
theorem c2_trigger_threshold (s s2 : PipelineState) (e : StoredEvent) :
    (shouldEnqueue e.status_code = true
      ↔ ∃ n, e.status_code = some n ∧ 500 ≤ n)
  ∧ (ingestEvent s e).events = s.events ++ [e]
  ∧ (shouldEnqueue e.status_code = true →
      (ingestEvent s e).queue = s.queue ++ [e.id])
  ∧ (shouldEnqueue e.status_code = false →
      (ingestEvent s e).queue = s.queue)
  ∧ (e.status_code = some 404 → (ingestEvent s e).queue = s.queue)
  ∧ (findEvent s2 e.id = some e → shouldEnqueue e.status_code = false →
      processTask s2 e.id = s2) := by
  refine ⟨?_, rfl, ?_, ?_, ?_, fun hfe hsc => processTask_below hfe hsc⟩
  · cases hsc : e.status_code with
    | none => simp [shouldEnqueue]
    | some n => simp [shouldEnqueue]
  · intro h; simp [ingestEvent, h]
  · intro h; simp [ingestEvent, h]
  · intro h; simp [ingestEvent, shouldEnqueue, h]

/-- Claim C2 witness: a 404 event is stored but enqueues nothing, and a
delivered task for it is a no-op. -/
theorem c2_trigger_threshold_witness :
    (ingestEvent emptyState event404).queue = emptyState.queue
    ∧ processTask (ingestEvent emptyState event404) event404.id
        = ingestEvent emptyState event404 :=
  ⟨(c2_trigger_threshold emptyState emptyState event404).2.2.2.2.1 rfl,
   (c2_trigger_threshold emptyState (ingestEvent emptyState event404)
      event404).2.2.2.2.2 (by decide) (by decide)⟩

/-- Claim C3: the retry delay is exponential and capped at 600 seconds,
a dead task is never retried again, a task failing on three consecutive
deliveries goes dead with exactly 3 attempts, any run of a fresh task
makes at most 3 attempts, and a task whose every delivery fails leaves
the database (and hence the event's analyses) untouched. -/
theorem c3_retry_backoff (os : List Bool) (t : TaskRecord) (now : Nat)
    (s : PipelineState) (eid : Nat) :
    (∀ a, backoffDelay a ≤ 600)
  ∧ (t.lifecycle = TaskLifecycle.dead → runAttempts os t now = t)
  ∧ ((∀ o ∈ os, o = false) → 3 ≤ os.length →
      (runAttempts os (freshTask eid) now).lifecycle = TaskLifecycle.dead
      ∧ (runAttempts os (freshTask eid) now).attempts = 3)
  ∧ (runAttempts os (freshTask eid) now).attempts ≤ maxAttempts
  ∧ ((∀ o ∈ os, o = false) →
      List.foldl (fun st o => attemptTask st eid o) s os = s
      ∧ (List.foldl (fun st o => attemptTask st eid o) s os).analyses
          = s.analyses) := by
  refine ⟨backoffDelay_le, runAttempts_dead os t now,
    runAttempts_all_fail eid now os, ?_, ?_⟩
  · exact runAttempts_attempts_le os (freshTask eid) now
      (by simp [freshTask, maxAttempts])
      (by intro h; simp [freshTask, maxAttempts] at h)
  · intro hfalse
    have hfold := foldl_attempt_fail eid os s hfalse
    exact ⟨hfold, by rw [hfold]⟩

/-- Claim C3 witness: three failed deliveries of a fresh task leave it
dead with 3 attempts and no analyses written. -/
theorem c3_retry_backoff_witness :
    (runAttempts [false, false, false] (freshTask 1) 0).lifecycle
        = TaskLifecycle.dead
    ∧ List.foldl (fun st o => attemptTask st 1 o) emptyState
        [false, false, false] = emptyState :=
  ⟨((c3_retry_backoff [false, false, false] (freshTask 1) 0 emptyState 1).2.2.1
      (by decide) (by decide)).1,
   ((c3_retry_backoff [false, false, false] (freshTask 1) 0 emptyState 1).2.2.2.2
      (by decide)).1⟩

/-- Claim C8: the stored path is the request's original URL with its
query string removed, UUID path segments replaced by `:id` (UUIDs before
numeric runs, as the digit-leading UUID example shows), and every
slash-prefixed digit run replaced by `:id`; in particular
`/users/123/orders/456` becomes `/users/:id/orders/:id` for every pair
of nonempty digit runs, and `/users/123?page=1` becomes `/users/:id`. -/
theorem c8_sanitized_path (now : String) (err : ErrObject) (res : ResObject)
    (m p : String) (d e : Char) (ds es : List Char)
    (hd0 : d.isDigit = true) (he0 : e.isDigit = true)
    (hds : ∀ c ∈ ds, c.isDigit = true) (hes : ∀ c ∈ es, c.isDigit = true) :
    (buildErrorEvent now err
        { method := m, originalUrl := some "/users/123/orders/456", path := p }
        res).path = "/users/:id/orders/:id"
  ∧ (buildErrorEvent now err
        { method := m, originalUrl := some "/users/123?page=1", path := p }
        res).path = "/users/:id"
  ∧ (buildErrorEvent now err
        { method := m,
          originalUrl := some "/users/550e8400-e29b-41d4-a716-446655440000",
          path := p } res).path = "/users/:id"
  ∧ sanitizePath "/123e4567-e89b-12d3-a456-426614174000" = "/:id"
  ∧ sanitizeChars ("/users/".data ++ d :: ds ++ ("/orders/".data ++ e :: es))
      = "/users/:id/orders/:id".data := by
  refine ⟨?_, ?_, ?_, ?_,
    sanitizeChars_users_orders d e ds es hd0 he0 hds hes⟩
  · simp +decide [buildErrorEvent, pathToSanitize, truthyStr, stripQuery,
      sanitizePath, sanitizeChars, replaceUUIDs, replaceNums]
  · simp +decide [buildErrorEvent, pathToSanitize, truthyStr, stripQuery,
      sanitizePath, sanitizeChars, replaceUUIDs, replaceNums]
  · simp +decide [buildErrorEvent, pathToSanitize, truthyStr, stripQuery,
      sanitizePath, sanitizeChars, replaceUUIDs, replaceNums]
  · simp +decide [sanitizePath, sanitizeChars, replaceUUIDs, replaceNums]

/-- Claim C8 witness at concrete digit runs. -/
theorem c8_sanitized_path_witness :
    sanitizeChars
      ("/users/".data ++ '7' :: [] ++ ("/orders/".data ++ '8' :: ['9']))
      = "/users/:id/orders/:id".data :=
  (c8_sanitized_path "t0" sampleErr sampleRes "GET" "/x" '7' '8' [] ['9']
    (by decide) (by decide) (by decide) (by decide)).2.2.2.2

end Stackwise
